import Mathlib

/-!
Shallow embedding of the tracing-tools library (src/src/lib.rs).

The library wraps a unit of work with a tracing span, emits structured
start and completion events, measures elapsed time with a monotone clock,
and returns the wrapped result unchanged.  We model the Rust code as pure
Lean functions:

  - the outcome of the wrapped work (the value of a call, or of a future
    driven to completion) is an `Except E R` value, mirroring
    `anyhow::Result` specialised to an opaque error type `E` with a debug
    representation `debug : E → String`;
  - emitted tracing events are captured in a list of `Event` records
    (level, message, optional elapsed field, optional error field);
  - the monotone clock is modelled by two readings: `t0`, taken by
    `Instant::now()` right before the wrapped work runs, and `tEnd`, taken
    by `t.elapsed()` when the completion event is logged; elapsed time is
    `tEnd - t0` (Rust durations are unsigned, hence `Nat` subtraction);
  - the Rust `Result` methods `is_err`, `err` and `unwrap` used by the
    instrument bodies are modelled faithfully, with the possible panic of
    `unwrap` made explicit as an `Option.none` outcome of the whole run,
    so that its unreachability is a theorem rather than an assumption.

`clean_fn` works on `List Char`, with the `split("::")` semantics of Rust
(leftmost, non-overlapping) transcribed as `splitCC`, the `join("::")` as
`joinSep`, the `rev().take(2).rev()` pipeline as `lastTwo`, and the
bracket-elision loop as `elide` with an `Int` depth counter `skip`, since
the Rust counter is a signed integer that may go negative.
-/

/-- Severity of an emitted tracing event: `info!` or `error!`. -/
inductive Level where
  | info : Level
  | err : Level
deriving DecidableEq, Repr

/-- A structured tracing event: severity level, message, and the optional
`elapsed` and `error` fields attached by the completion events. -/
structure Event where
  level : Level
  message : String
  elapsed : Option Nat
  errorField : Option String
deriving DecidableEq, Repr

/-- The span passed to a task; opaque to the wrapper, it only carries a
name derived at the call site. -/
structure Span where
  name : String
deriving DecidableEq, Repr

/-- Rust `Result::is_err`. -/
def isErr {E R : Type} : Except E R → Bool
  | Except.error _ => true
  | Except.ok _ => false

/-- Rust `Result::err`, returning the error if present. -/
def errOf {E R : Type} : Except E R → Option E
  | Except.error e => some e
  | Except.ok _ => none

/-- Rust `Result::ok` as used by `Result::unwrap`: the success value if
present.  `unwrap` panics exactly when this is `none`. -/
def okOf {E R : Type} : Except E R → Option R
  | Except.error _ => none
  | Except.ok v => some v

/-- `SyncTracingTask` (lib.rs lines 11-15): a span, a one-shot callable
modelled by its outcome, and the longevity flag. -/
structure SyncTracingTask (E R : Type) where
  span : Span
  call : Except E R
  is_long_lived : Bool

/-- `SyncTracingTask::new` (lib.rs lines 18-24). -/
def SyncTracingTask.new {E R : Type} (span : Span) (call : Except E R) :
    SyncTracingTask E R :=
  ⟨span, call, true⟩

/-- `SyncTracingTask::new_short_lived` (lib.rs lines 26-32). -/
def SyncTracingTask.new_short_lived {E R : Type} (span : Span)
    (call : Except E R) : SyncTracingTask E R :=
  ⟨span, call, false⟩

/-- The start event `info!("Starting...")`. -/
def startEvent : Event := ⟨Level.info, "Starting...", none, none⟩

/-- The failure completion event
`error!(error = ?err, elapsed = ?t.elapsed(), "Finished with")`. -/
def failEvent (elapsed : Nat) (errRepr : String) : Event :=
  ⟨Level.err, "Finished with", some elapsed, some errRepr⟩

/-- The success completion event
`info!(elapsed = ?t.elapsed(), "Finished [OK]...")`. -/
def okEvent (elapsed : Nat) : Event :=
  ⟨Level.info, "Finished [OK]...", some elapsed, none⟩

/-- Body of the closure returned by `SyncTracingTask::instrument`
(lib.rs lines 41-57), executed: emits the start event when long lived,
reads the clock (`t0`), runs the call, and on `is_err` unwraps the error,
logs the failure event and returns the error; otherwise logs the success
event and returns the unwrapped value.  `tEnd` is the clock reading at
`t.elapsed()`; the second component is `none` exactly when one of the two
`unwrap` calls would panic. -/
def SyncTracingTask.instrumentRun {E R : Type} (task : SyncTracingTask E R)
    (debug : E → String) (t0 tEnd : Nat) :
    List Event × Option (Except E R) :=
  let pre : List Event := if task.is_long_lived then [startEvent] else []
  let r := task.call
  if isErr r then
    match errOf r with
    | some e => (pre ++ [failEvent (tEnd - t0) (debug e)], some (Except.error e))
    | none => (pre, none)
  else
    match okOf r with
    | some v => (pre ++ [okEvent (tEnd - t0)], some (Except.ok v))
    | none => (pre, none)

/-- `TracingTask` (lib.rs lines 63-67): a span, a pinned future modelled
by its eventual outcome, and the longevity flag. -/
structure TracingTask (E R : Type) where
  span : Span
  future : Except E R
  is_long_lived : Bool

/-- `TracingTask::new` (lib.rs lines 70-76). -/
def TracingTask.new {E R : Type} (span : Span) (fut : Except E R) :
    TracingTask E R :=
  ⟨span, fut, true⟩

/-- `TracingTask::new_short_lived` (lib.rs lines 78-84). -/
def TracingTask.new_short_lived {E R : Type} (span : Span)
    (fut : Except E R) : TracingTask E R :=
  ⟨span, fut, false⟩

/-- Body of the future returned by `TracingTask::instrument`
(lib.rs lines 93-107), driven to completion: the same six-step sequence as
the sync wrapper, with the future awaited in place of the call. -/
def TracingTask.instrumentRun {E R : Type} (task : TracingTask E R)
    (debug : E → String) (t0 tEnd : Nat) :
    List Event × Option (Except E R) :=
  let pre : List Event := if task.is_long_lived then [startEvent] else []
  let r := task.future
  if isErr r then
    match errOf r with
    | some e => (pre ++ [failEvent (tEnd - t0) (debug e)], some (Except.error e))
    | none => (pre, none)
  else
    match okOf r with
    | some v => (pre ++ [okEvent (tEnd - t0)], some (Except.ok v))
    | none => (pre, none)

/-- An event is the start event. -/
def isStartEv (ev : Event) : Bool := ev.message = "Starting..."

/-- An event is a completion event (success or failure). -/
def isCompletionEv (ev : Event) : Bool :=
  ev.message = "Finished with" || ev.message = "Finished [OK]..."

/-- Rust `s.split("::")` on a character list: leftmost, non-overlapping
occurrences of the two-character separator delimit the segments
(lib.rs line 115). -/
def splitCC : List Char → List (List Char)
  | [] => [[]]
  | ':' :: ':' :: rest => [] :: splitCC rest
  | c :: rest =>
    match splitCC rest with
    | [] => [[c]]
    | p :: ps => (c :: p) :: ps

/-- Rust `join("::")` on segments (lib.rs line 120). -/
def joinSep : List (List Char) → List Char
  | [] => []
  | [p] => p
  | p :: ps => p ++ ':' :: ':' :: joinSep ps

/-- The `rev().take(2).rev()` pipeline of lib.rs lines 117-118: the last
two segments, in order. -/
def lastTwo {α : Type} (l : List α) : List α :=
  (l.reverse.take 2).reverse

/-- The bracket-elision loop of lib.rs lines 122-132: `skip` counts the
nesting depth of angle brackets (a signed counter, as in the source),
and a character other than a bracket is kept exactly when `skip < 1`. -/
def elide : List Char → Int → List Char
  | [], _ => []
  | c :: cs, skip =>
    if c = '<' then elide cs (skip + 1)
    else if c = '>' then elide cs (skip - 1)
    else if skip < 1 then c :: elide cs skip
    else elide cs skip

/-- `clean_fn` (lib.rs lines 113-134): split the input on `::`, keep the
last two segments, rejoin them with `::`, then strip bracketed
annotations with the depth-tracking loop. -/
def clean_fn (s : String) : String :=
  let name := joinSep (lastTwo (splitCC s.toList))
  String.mk (elide name 0)


/-- Normal form of a sync run whose call fails. -/
theorem syncRun_err {E R : Type} (sp : Span) (e : E) (ll : Bool)
    (debug : E → String) (t0 tEnd : Nat) :
    SyncTracingTask.instrumentRun (E := E) (R := R) ⟨sp, Except.error e, ll⟩
        debug t0 tEnd
      = ((if ll then [startEvent] else []) ++ [failEvent (tEnd - t0) (debug e)],
         some (Except.error e)) := by
  simp [SyncTracingTask.instrumentRun, isErr, errOf]

/-- Normal form of a sync run whose call succeeds. -/
theorem syncRun_ok {E R : Type} (sp : Span) (v : R) (ll : Bool)
    (debug : E → String) (t0 tEnd : Nat) :
    SyncTracingTask.instrumentRun ⟨sp, Except.ok v, ll⟩ debug t0 tEnd
      = ((if ll then [startEvent] else []) ++ [okEvent (tEnd - t0)],
         some (Except.ok v)) := by
  simp [SyncTracingTask.instrumentRun, isErr, okOf]

/-- Normal form of an async run whose future fails. -/
theorem asyncRun_err {E R : Type} (sp : Span) (e : E) (ll : Bool)
    (debug : E → String) (t0 tEnd : Nat) :
    TracingTask.instrumentRun (E := E) (R := R) ⟨sp, Except.error e, ll⟩
        debug t0 tEnd
      = ((if ll then [startEvent] else []) ++ [failEvent (tEnd - t0) (debug e)],
         some (Except.error e)) := by
  simp [TracingTask.instrumentRun, isErr, errOf]

/-- Normal form of an async run whose future succeeds. -/
theorem asyncRun_ok {E R : Type} (sp : Span) (v : R) (ll : Bool)
    (debug : E → String) (t0 tEnd : Nat) :
    TracingTask.instrumentRun ⟨sp, Except.ok v, ll⟩ debug t0 tEnd
      = ((if ll then [startEvent] else []) ++ [okEvent (tEnd - t0)],
         some (Except.ok v)) := by
  simp [TracingTask.instrumentRun, isErr, okOf]

/-- Claim C1: executing the instrumented operation returns exactly what
the wrapped operation produced, for both wrappers: a success value is
returned identically and an error is returned identically, with no
transformation. -/
theorem instrument_result_identity {E R : Type} (debug : E → String)
    (t0 tEnd : Nat) (taskS : SyncTracingTask E R) (taskA : TracingTask E R) :
    (taskS.instrumentRun debug t0 tEnd).2 = some taskS.call ∧
    (taskA.instrumentRun debug t0 tEnd).2 = some taskA.future := by
  obtain ⟨sp, c, ll⟩ := taskS
  obtain ⟨sp2, f, ll2⟩ := taskA
  constructor
  · cases c with
    | error e => rw [syncRun_err]
    | ok v => rw [syncRun_ok]
  · cases f with
    | error e => rw [asyncRun_err]
    | ok v => rw [asyncRun_ok]

/-- Claim C2: every completed run of an instrumented task, sync or async,
emits exactly one completion event, never zero and never two. -/
theorem instrument_one_completion {E R : Type} (debug : E → String)
    (t0 tEnd : Nat) (taskS : SyncTracingTask E R) (taskA : TracingTask E R) :
    ((taskS.instrumentRun debug t0 tEnd).1.countP
        (fun ev => isCompletionEv ev) = 1) ∧
    ((taskA.instrumentRun debug t0 tEnd).1.countP
        (fun ev => isCompletionEv ev) = 1) := by
  obtain ⟨sp, c, ll⟩ := taskS
  obtain ⟨sp2, f, ll2⟩ := taskA
  constructor
  · cases c with
    | error e =>
      rw [syncRun_err]
      cases ll <;>
        simp [List.countP_cons, isCompletionEv, startEvent, failEvent]
    | ok v =>
      rw [syncRun_ok]
      cases ll <;>
        simp [List.countP_cons, isCompletionEv, startEvent, okEvent]
  · cases f with
    | error e =>
      rw [asyncRun_err]
      cases ll2 <;>
        simp [List.countP_cons, isCompletionEv, startEvent, failEvent]
    | ok v =>
      rw [asyncRun_ok]
      cases ll2 <;>
        simp [List.countP_cons, isCompletionEv, startEvent, okEvent]

/-- Claim C8: the sync and async wrappers run the same six-step sequence:
for the same longevity flag and the same underlying outcome they emit the
same events, in the same order and with the same contents, and return the
same result. -/
theorem sync_async_equivalent {E R : Type} (sp : Span) (out : Except E R)
    (ll : Bool) (debug : E → String) (t0 tEnd : Nat) :
    SyncTracingTask.instrumentRun ⟨sp, out, ll⟩ debug t0 tEnd
      = TracingTask.instrumentRun ⟨sp, out, ll⟩ debug t0 tEnd := by
  cases out with
  | error e => rw [syncRun_err, asyncRun_err]
  | ok v => rw [syncRun_ok, asyncRun_ok]

/-- In an event list made of an optional start event followed by one
completion event, every start event sits at a strictly smaller index than
every completion event. -/
theorem order_aux (compEv : Event) (hstart : isStartEv compEv = false)
    (ll : Bool) :
    ∀ (i j : Nat) (ev ev' : Event),
      ((if ll then [startEvent] else []) ++ [compEv])[i]? = some ev →
      ((if ll then [startEvent] else []) ++ [compEv])[j]? = some ev' →
      isStartEv ev = true → isCompletionEv ev' = true → i < j := by
  cases ll with
  | false =>
    intro i j ev ev' hi hj hs _
    cases i with
    | zero =>
      simp at hi
      rw [← hi, hstart] at hs
      exact absurd hs (by simp)
    | succ n =>
      simp at hi
  | true =>
    intro i j ev ev' hi hj hs hc
    cases j with
    | zero =>
      simp at hj
      rw [← hj] at hc
      have : isCompletionEv startEvent = false := by decide
      rw [this] at hc
      exact absurd hc (by simp)
    | succ m =>
      cases m with
      | zero =>
        cases i with
        | zero => exact Nat.zero_lt_one
        | succ n =>
          cases n with
          | zero =>
            simp at hi
            rw [← hi, hstart] at hs
            exact absurd hs (by simp)
          | succ k => simp at hi
      | succ k => simp at hj

/-- Claim C3: `new` sets the longevity flag to true and `new_short_lived`
sets it to false, for both wrappers; a start event is emitted if and only
if the task is long lived; and any start event is strictly before any
completion event. -/
theorem constructor_flag_and_start_order {E R : Type} (sp : Span)
    (c f : Except E R) (debug : E → String) (t0 tEnd : Nat)
    (taskS : SyncTracingTask E R) (taskA : TracingTask E R) :
    (SyncTracingTask.new sp c).is_long_lived = true ∧
    (SyncTracingTask.new_short_lived sp c).is_long_lived = false ∧
    (TracingTask.new sp f).is_long_lived = true ∧
    (TracingTask.new_short_lived sp f).is_long_lived = false ∧
    ((taskS.instrumentRun debug t0 tEnd).1.any isStartEv
        = taskS.is_long_lived) ∧
    ((taskA.instrumentRun debug t0 tEnd).1.any isStartEv
        = taskA.is_long_lived) ∧
    (∀ (i j : Nat) (ev ev' : Event),
      ((taskS.instrumentRun debug t0 tEnd).1)[i]? = some ev →
      ((taskS.instrumentRun debug t0 tEnd).1)[j]? = some ev' →
      isStartEv ev = true → isCompletionEv ev' = true → i < j) ∧
    (∀ (i j : Nat) (ev ev' : Event),
      ((taskA.instrumentRun debug t0 tEnd).1)[i]? = some ev →
      ((taskA.instrumentRun debug t0 tEnd).1)[j]? = some ev' →
      isStartEv ev = true → isCompletionEv ev' = true → i < j) := by
  obtain ⟨spS, cS, llS⟩ := taskS
  obtain ⟨spA, fA, llA⟩ := taskA
  refine ⟨rfl, rfl, rfl, rfl, ?_, ?_, ?_, ?_⟩
  · cases cS with
    | error e =>
      rw [syncRun_err]
      cases llS <;> simp [isStartEv, startEvent, failEvent]
    | ok v =>
      rw [syncRun_ok]
      cases llS <;> simp [isStartEv, startEvent, okEvent]
  · cases fA with
    | error e =>
      rw [asyncRun_err]
      cases llA <;> simp [isStartEv, startEvent, failEvent]
    | ok v =>
      rw [asyncRun_ok]
      cases llA <;> simp [isStartEv, startEvent, okEvent]
  · cases cS with
    | error e =>
      rw [syncRun_err]
      exact order_aux _ (by simp [isStartEv, failEvent]) llS
    | ok v =>
      rw [syncRun_ok]
      exact order_aux _ (by simp [isStartEv, okEvent]) llS
  · cases fA with
    | error e =>
      rw [asyncRun_err]
      exact order_aux _ (by simp [isStartEv, failEvent]) llA
    | ok v =>
      rw [asyncRun_ok]
      exact order_aux _ (by simp [isStartEv, okEvent]) llA

/-- Claim C3 witness: at a concrete long-lived failing sync task the flag
facts hold and the start event (index 0) precedes the completion event
(index 1). -/
theorem constructor_flag_and_start_order_witness :
    (SyncTracingTask.new (E := Unit) (R := Unit) ⟨"t"⟩
        (Except.ok ())).is_long_lived = true ∧ (0 : Nat) < 1 := by
  refine ⟨?_, ?_⟩
  · exact (constructor_flag_and_start_order ⟨"t"⟩ (Except.ok ()) (Except.ok ())
      (fun _ : Unit => "x") 0 1 ⟨⟨"t"⟩, Except.error (), true⟩
      ⟨⟨"t"⟩, Except.ok (), true⟩).1
  · exact (constructor_flag_and_start_order ⟨"t"⟩ (Except.ok ()) (Except.ok ())
      (fun _ : Unit => "x") 0 1 ⟨⟨"t"⟩, Except.error (), true⟩
      ⟨⟨"t"⟩, Except.ok (), true⟩).2.2.2.2.2.2.1 0 1 startEvent
      (failEvent 1 "x") (by decide) (by decide) (by decide) (by decide)

/-- Membership in an optional-start-plus-one-completion event list. -/
theorem mem_aux (compEv : Event) (ll : Bool) (ev : Event)
    (h : ev ∈ (if ll then [startEvent] else []) ++ [compEv]) :
    ev = startEvent ∨ ev = compEv := by
  cases ll <;> simp_all

/-- Claim C4: with a monotone clock, where the wrapped work consumes at
least `dur` ticks between the start reading `t0` and the completion
reading `tEnd`, every completion event of either wrapper carries the
elapsed field `tEnd - t0`, which is at least `dur`; durations are natural
numbers, hence non-negative, as Rust durations are unsigned. -/
theorem elapsed_measurement {E R : Type} (debug : E → String)
    (t0 tEnd dur : Nat) (taskS : SyncTracingTask E R)
    (taskA : TracingTask E R) (hclock : t0 + dur ≤ tEnd) :
    ∀ ev : Event,
      (ev ∈ (taskS.instrumentRun debug t0 tEnd).1 ∨
       ev ∈ (taskA.instrumentRun debug t0 tEnd).1) →
      isCompletionEv ev = true →
      ev.elapsed = some (tEnd - t0) ∧ dur ≤ tEnd - t0 := by
  have hdur : dur ≤ tEnd - t0 := by omega
  obtain ⟨spS, cS, llS⟩ := taskS
  obtain ⟨spA, fA, llA⟩ := taskA
  intro ev hmem hcomp
  have hev : ev = startEvent ∨ ev.elapsed = some (tEnd - t0) := by
    rcases hmem with hS | hA
    · cases cS with
      | error e =>
        rw [syncRun_err] at hS
        rcases mem_aux _ llS ev hS with h | h
        · exact Or.inl h
        · exact Or.inr (by rw [h]; rfl)
      | ok v =>
        rw [syncRun_ok] at hS
        rcases mem_aux _ llS ev hS with h | h
        · exact Or.inl h
        · exact Or.inr (by rw [h]; rfl)
    · cases fA with
      | error e =>
        rw [asyncRun_err] at hA
        rcases mem_aux _ llA ev hA with h | h
        · exact Or.inl h
        · exact Or.inr (by rw [h]; rfl)
      | ok v =>
        rw [asyncRun_ok] at hA
        rcases mem_aux _ llA ev hA with h | h
        · exact Or.inl h
        · exact Or.inr (by rw [h]; rfl)
  rcases hev with h | h
  · rw [h] at hcomp
    exact absurd hcomp (by decide)
  · exact ⟨h, hdur⟩

/-- Claim C4 witness: a success run with start reading 10 and completion
reading 70, the work consuming at least 50 ticks, reports elapsed 60,
which is at least 50. -/
theorem elapsed_measurement_witness :
    (okEvent 60).elapsed = some (70 - 10) ∧ 50 ≤ 70 - 10 :=
  elapsed_measurement (fun _ : Unit => "x") 10 70 50
    ⟨⟨"t"⟩, Except.ok (), true⟩ (⟨⟨"t"⟩, Except.ok (), true⟩ : TracingTask Unit Unit)
    (by decide) (okEvent 60) (Or.inl (by decide)) (by decide)

/-- Claim C5: the emitted events carry exactly the specified content: a
start event at informational severity with message "Starting..." and no
fields; on failure a completion event at error severity with message
"Finished with", the elapsed field and the debug representation of the
error; on success a completion event at informational severity with
message "Finished [OK]..." and the elapsed field; identically for both
wrappers. -/
theorem event_content_contract {E R : Type} (sp : Span) (e : E) (v : R)
    (ll : Bool) (debug : E → String) (t0 tEnd : Nat) :
    (SyncTracingTask.instrumentRun (E := E) (R := R) ⟨sp, Except.error e, ll⟩
        debug t0 tEnd).1
      = (if ll then [⟨Level.info, "Starting...", none, none⟩] else [])
        ++ [⟨Level.err, "Finished with", some (tEnd - t0), some (debug e)⟩] ∧
    (SyncTracingTask.instrumentRun ⟨sp, Except.ok v, ll⟩ debug t0 tEnd).1
      = (if ll then [⟨Level.info, "Starting...", none, none⟩] else [])
        ++ [⟨Level.info, "Finished [OK]...", some (tEnd - t0), none⟩] ∧
    (TracingTask.instrumentRun (E := E) (R := R) ⟨sp, Except.error e, ll⟩
        debug t0 tEnd).1
      = (if ll then [⟨Level.info, "Starting...", none, none⟩] else [])
        ++ [⟨Level.err, "Finished with", some (tEnd - t0), some (debug e)⟩] ∧
    (TracingTask.instrumentRun ⟨sp, Except.ok v, ll⟩ debug t0 tEnd).1
      = (if ll then [⟨Level.info, "Starting...", none, none⟩] else [])
        ++ [⟨Level.info, "Finished [OK]...", some (tEnd - t0), none⟩] := by
  refine ⟨?_, ?_, ?_, ?_⟩
  · rw [syncRun_err]; rfl
  · rw [syncRun_ok]; rfl
  · rw [asyncRun_err]; rfl
  · rw [asyncRun_ok]; rfl

/-- Claim C6: the wrapper introduces no failure mode of its own: both
instrument bodies always produce a result (the modelled unwrap panics are
unreachable), the unwrap of `err()` is safe whenever `is_err` holds and
the unwrap of the success value is safe whenever it does not, and the
outcome type has exactly the two cases success and failure. -/
theorem no_wrapper_failure {E R : Type} (debug : E → String) (t0 tEnd : Nat)
    (taskS : SyncTracingTask E R) (taskA : TracingTask E R)
    (r : Except E R) :
    ((taskS.instrumentRun debug t0 tEnd).2.isSome = true) ∧
    ((taskA.instrumentRun debug t0 tEnd).2.isSome = true) ∧
    (isErr r = true → (errOf r).isSome = true) ∧
    (isErr r = false → (okOf r).isSome = true) ∧
    ((∃ e, r = Except.error e) ∨ (∃ v, r = Except.ok v)) := by
  obtain ⟨spS, cS, llS⟩ := taskS
  obtain ⟨spA, fA, llA⟩ := taskA
  refine ⟨?_, ?_, ?_, ?_, ?_⟩
  · cases cS with
    | error e => rw [syncRun_err]; rfl
    | ok v => rw [syncRun_ok]; rfl
  · cases fA with
    | error e => rw [asyncRun_err]; rfl
    | ok v => rw [asyncRun_ok]; rfl
  · cases r <;> simp [isErr, errOf]
  · cases r <;> simp [isErr, okOf]
  · cases r with
    | error e => exact Or.inl ⟨e, rfl⟩
    | ok v => exact Or.inr ⟨v, rfl⟩

/-- Claim C6 witness: at concrete failing and succeeding outcomes the
instrumented runs produce a result and both unwraps are safe. -/
theorem no_wrapper_failure_witness :
    ((SyncTracingTask.instrumentRun (E := Nat) (R := Nat)
        ⟨⟨"t"⟩, Except.error 7, true⟩ (fun _ => "x") 0 1).2.isSome = true) ∧
    (errOf (Except.error 7 : Except Nat Nat)).isSome = true ∧
    (okOf (Except.ok 5 : Except Nat Nat)).isSome = true := by
  refine ⟨?_, ?_, ?_⟩
  · exact (no_wrapper_failure (fun _ => "x") 0 1 ⟨⟨"t"⟩, Except.error 7, true⟩
      (⟨⟨"t"⟩, Except.ok 5, true⟩ : TracingTask Nat Nat) (Except.error 7)).1
  · exact (no_wrapper_failure (fun _ => "x") 0 1 ⟨⟨"t"⟩, Except.error 7, true⟩
      (⟨⟨"t"⟩, Except.ok 5, true⟩ : TracingTask Nat Nat)
      (Except.error 7)).2.2.1 (by decide)
  · exact (no_wrapper_failure (fun _ => "x") 0 1 ⟨⟨"t"⟩, Except.error 7, true⟩
      (⟨⟨"t"⟩, Except.ok 5, true⟩ : TracingTask Nat Nat)
      (Except.ok 5)).2.2.2.1 (by decide)

/-- Splitting always yields at least one segment. -/
theorem splitCC_ne_nil : ∀ l : List Char, splitCC l ≠ [] := by
  intro l
  induction l using splitCC.induct with
  | case1 => simp [splitCC]
  | case2 rest ih => simp [splitCC]
  | case3 c rest h hnil ih => exact absurd hnil ih
  | case4 c rest h p ps heq ih => simp [splitCC, heq]

/-- Rejoining the split segments with the separator recovers the input. -/
theorem joinSep_splitCC : ∀ l : List Char, joinSep (splitCC l) = l := by
  intro l
  induction l using splitCC.induct with
  | case1 => rfl
  | case2 rest ih =>
    have hne := splitCC_ne_nil rest
    obtain ⟨p, ps, hps⟩ := List.exists_cons_of_ne_nil hne
    simp only [splitCC, hps] at ih ⊢
    rw [← ih]
    rfl
  | case3 c rest h hnil ih => exact absurd hnil (splitCC_ne_nil rest)
  | case4 c rest h p ps heq ih =>
    simp only [splitCC, heq] at ih ⊢
    cases ps with
    | nil => simpa [joinSep] using ih
    | cons q qs =>
      simp only [joinSep] at ih ⊢
      rw [List.cons_append, ih]

/-- Taking the last two of at most two segments keeps them all. -/
theorem lastTwo_of_len_le {α : Type} (l : List α) (h : l.length ≤ 2) :
    lastTwo l = l := by
  unfold lastTwo
  rw [List.take_of_length_le (by simpa using h), List.reverse_reverse]

/-- The elision loop at depth zero keeps a bracket-free list unchanged. -/
theorem elide_zero_id (l : List Char) (h : ∀ c ∈ l, c ≠ '<' ∧ c ≠ '>') :
    elide l 0 = l := by
  induction l with
  | nil => rfl
  | cons c cs ih =>
    obtain ⟨h1, h2⟩ := h c (List.mem_cons_self c cs)
    simp only [elide, h1, h2, if_false]
    rw [if_pos (by norm_num)]
    rw [ih (fun x hx => h x (List.mem_cons_of_mem c hx))]

/-- Claim C7: `clean_fn` keeps the last two path segments and elides
bracketed annotations by depth tracking: "a::b::c::d" maps to "c::d",
"a::b::c<T>::d" maps to "c::d", and the nested annotation in
"a::b<c<T>>::d" is fully elided, leaving no angle bracket in the
output. -/
theorem clean_fn_name_derivation :
    clean_fn "a::b::c::d" = "c::d" ∧
    clean_fn "a::b::c<T>::d" = "c::d" ∧
    (clean_fn "a::b<c<T>>::d").toList.contains '<' = false ∧
    (clean_fn "a::b<c<T>>::d").toList.contains '>' = false := by decide

/-- Claim C9: `clean_fn` splits on the separator before stripping
brackets, so a separator inside a bracketed annotation affects segment
selection: "a::b::c<T::U>::d" maps to "U::d", not to "c::d". -/
theorem clean_fn_split_before_strip :
    clean_fn "a::b::c<T::U>::d" = "U::d" ∧
    clean_fn "a::b::c<T::U>::d" ≠ "c::d" := by decide

/-- Claim C10: `clean_fn` is total (a Lean function by construction); the
elision loop keeps characters whenever the depth counter is below one,
including negative depths, consumes an unmatched closing delimiter into
the counter so that "a>b" maps to "ab"; and an input with at most one
separator and no angle brackets is returned unchanged. -/
theorem clean_fn_total_behavior :
    (∀ s : String, (splitCC s.toList).length ≤ 2 →
        (∀ c ∈ s.toList, c ≠ '<' ∧ c ≠ '>') → clean_fn s = s) ∧
    clean_fn "a>b" = "ab" ∧
    (∀ (cs : List Char) (skip : Int) (c : Char), skip < 1 → c ≠ '<' →
        c ≠ '>' → elide (c :: cs) skip = c :: elide cs skip) ∧
    (∀ (cs : List Char) (skip : Int),
        elide ('>' :: cs) skip = elide cs (skip - 1)) := by
  refine ⟨?_, by decide, ?_, ?_⟩
  · intro s h1 h2
    show String.mk (elide (joinSep (lastTwo (splitCC s.toList))) 0) = s
    rw [lastTwo_of_len_le _ h1, joinSep_splitCC, elide_zero_id _ h2]
    rfl
  · intro cs skip c hlt h1 h2
    simp only [elide, h1, h2, if_false]
    rw [if_pos hlt]
  · intro cs skip
    simp [elide]

/-- Claim C10 witness: a concrete input with one separator and no
brackets is unchanged, and the keep-below-depth-one branch fires at a
concrete character. -/
theorem clean_fn_total_behavior_witness :
    clean_fn "ab::cd" = "ab::cd" ∧ elide ['a'] 0 = 'a' :: elide [] 0 := by
  refine ⟨?_, ?_⟩
  · exact clean_fn_total_behavior.1 "ab::cd" (by decide) (by decide)
  · exact clean_fn_total_behavior.2.2.1 [] 0 'a' (by decide) (by decide)
      (by decide)
